import Mathlib

/-!
# TorrentModel (src/qtlibtorrent/torrentmodel.cpp)

A shallow embedding of the row item (`TorrentModelItem`) and of the list model
(`TorrentModel`) of the transfer list, and the properties of the two that the
specification states.

Conventions of the embedding

* A query on a torrent handle either gives a value or throws
  `libtorrent::invalid_handle`; a query is an `Option`, `none` being the throw.
* Mutable members become explicit state: the model is the row list together
  with the log of the notifications it has emitted.
* `int` is 32 bits wide and `qulonglong` 64 bits wide.
-/

namespace TorrentModelSpec

abbrev QString := String

/-! ## Engine side -/

/-- The values of `libtorrent::torrent_status::state_t` the source names, and
`other` for any value that no `case` label of the source names. -/
inductive torrent_status where
  | queued_for_checking
  | checking_files
  | downloading_metadata
  | downloading
  | finished
  | seeding
  | allocating
  | checking_resume_data
  | other (n : Nat)
  deriving DecidableEq, Repr

/-- What one `QTorrentHandle` answers to each query the source makes; `none` is
a query that throws `invalid_handle`. The four counts are `int` values. The
payload rates are only ever compared with zero and are kept as integers. -/
structure QTorrentHandle where
  hash : Option QString
  name : Option QString
  is_paused : Option Bool
  is_queued : Option Bool
  is_seed : Option Bool
  state : Option torrent_status
  download_payload_rate : Option Int
  upload_payload_rate : Option Int
  num_seeds : Option Int
  num_complete : Option Int
  num_peers : Option Int
  num_incomplete : Option Int
  deriving DecidableEq, Repr

/-! ## Row item -/

/-- The enumerators of `TorrentModelItem::State`. -/
inductive State where
  | STATE_DOWNLOADING
  | STATE_STALLED_DL
  | STATE_STALLED_UP
  | STATE_SEEDING
  | STATE_PAUSED_DL
  | STATE_PAUSED_UP
  | STATE_QUEUED_DL
  | STATE_QUEUED_UP
  | STATE_CHECKING_UP
  | STATE_CHECKING_DL
  | STATE_INVALID
  deriving DecidableEq, Repr

open State

/-- What a call of `TorrentModelItem::state()` leaves behind: the value it
returns and the two cached members `m_icon` and `m_fgColor` it assigns. -/
structure Classified where
  state : State
  m_icon : String
  m_fgColor : String
  deriving DecidableEq, Repr

/-- The `switch(m_torrent.state())` of `TorrentModelItem::state()`. -/
def stateSwitch (t : QTorrentHandle) (s : torrent_status) : Option Classified :=
  match s with
  | .allocating | .downloading_metadata | .downloading =>
    t.download_payload_rate.bind fun rate =>
      if rate > 0 then
        some ⟨STATE_DOWNLOADING, ":/Icons/skin/downloading.png", "green"⟩
      else
        some ⟨STATE_STALLED_DL, ":/Icons/skin/stalledDL.png", "grey"⟩
  | .finished | .seeding =>
    t.upload_payload_rate.bind fun rate =>
      if rate > 0 then
        some ⟨STATE_SEEDING, ":/Icons/skin/uploading.png", "orange"⟩
      else
        some ⟨STATE_STALLED_UP, ":/Icons/skin/stalledUP.png", "grey"⟩
  | .queued_for_checking | .checking_resume_data | .checking_files =>
    t.is_seed.bind fun seed =>
      some ⟨if seed then STATE_CHECKING_UP else STATE_CHECKING_DL,
        ":/Icons/skin/checking.png", "grey"⟩
  | .other _ => some ⟨STATE_INVALID, ":/Icons/skin/error.png", "red"⟩

/-- The body of the `try` block of `TorrentModelItem::state()`; `none` when a
query throws `invalid_handle` before a `return` is reached. -/
def stateTry (t : QTorrentHandle) : Option Classified :=
  t.is_paused.bind fun paused =>
    if paused then
      t.is_seed.bind fun seed =>
        some ⟨if seed then STATE_PAUSED_UP else STATE_PAUSED_DL,
          ":/Icons/skin/paused.png", "red"⟩
    else
      t.is_queued.bind fun queued =>
        if queued then
          t.is_seed.bind fun seed =>
            some ⟨if seed then STATE_QUEUED_UP else STATE_QUEUED_DL,
              ":/Icons/skin/queued.png", "grey"⟩
        else
          t.state.bind fun s => stateSwitch t s

/-- The function `TorrentModelItem::state()` with the members it assigns: the `try` block,
and the `catch(invalid_handle&)` handler when a query throws. -/
def classify (t : QTorrentHandle) : Classified :=
  match stateTry t with
  | some c => c
  | none => ⟨STATE_INVALID, ":/Icons/skin/error.png", "red"⟩

/-- The value `TorrentModelItem::state()` returns for a row whose handle is `t`. -/
def state (t : QTorrentHandle) : State :=
  (classify t).state

/-! ## Machine integers -/

/-- The value an `int` holds after a computation whose mathematical result is
`x`: 32 bits, two's complement, wrapping around on overflow. -/
def toInt (x : Int) : Int :=
  (x + 2147483648) % 4294967296 - 2147483648

/-- Conversion of an `int` to `qulonglong`: reduction modulo 2^64. -/
def toULongLong (x : Int) : Nat :=
  (x % 18446744073709551616).toNat

/-- Addition of two `qulonglong` values. -/
def addULongLong (a b : Nat) : Nat :=
  (a + b) % 18446744073709551616

/-- The `case TR_SEEDS` block of `TorrentModelItem::data` on the values the two
queries give: `num_seeds()*1000000` and `num_complete()*10` are `int` products,
`seeds` is a `qulonglong`. -/
def seedsValue (num_seeds num_complete : Int) : Nat :=
  let seeds := toULongLong (toInt (num_seeds * 1000000))
  if num_complete ≥ num_seeds then
    addULongLong seeds (toULongLong (toInt (num_complete * 10)))
  else
    addULongLong seeds 1

/-- The value of `TorrentModelItem::data(TR_SEEDS, Qt::DisplayRole)` for a row whose handle
is `t`; `none` when a query throws. -/
def data_TR_SEEDS (t : QTorrentHandle) : Option Nat :=
  t.num_seeds.bind fun s =>
    t.num_complete.bind fun c =>
      some (seedsValue s c)

/-- The `case TR_PEERS` block of `TorrentModelItem::data` on the values the
three queries give. -/
def peersValue (num_peers num_seeds num_incomplete : Int) : Nat :=
  let peers := toULongLong (toInt (toInt (num_peers - num_seeds) * 1000000))
  if num_incomplete ≥ toInt (num_peers - num_seeds) then
    addULongLong peers (toULongLong (toInt (num_incomplete * 10)))
  else
    addULongLong peers 1

/-- The value of `TorrentModelItem::data(TR_PEERS, Qt::DisplayRole)` for a row whose handle
is `t`; `none` when a query throws. -/
def data_TR_PEERS (t : QTorrentHandle) : Option Nat :=
  t.num_peers.bind fun p =>
    t.num_seeds.bind fun s =>
      t.num_incomplete.bind fun i =>
        some (peersValue p s i)

/-! ## Persistent data and the row item -/

abbrev QDateTime := Nat

/-- Modelled from the spec: `TorrentPersistentData` (torrentpersistentdata.h is
not among the sources) keeps a name, a label, an added date and a seed date
for each hash; a `save` overwrites the entry of one hash. -/
structure TorrentPersistentData where
  getName : QString → QString
  getLabel : QString → QString
  getAddedDate : QString → QDateTime
  getSeedDate : QString → QDateTime

/-- The call `TorrentPersistentData::saveName(hash, name)`. -/
def TorrentPersistentData.saveName (pd : TorrentPersistentData) (hash name : QString) :
    TorrentPersistentData :=
  { pd with getName := Function.update pd.getName hash name }

/-- The call `TorrentPersistentData::saveLabel(hash, label)`. -/
def TorrentPersistentData.saveLabel (pd : TorrentPersistentData) (hash label : QString) :
    TorrentPersistentData :=
  { pd with getLabel := Function.update pd.getLabel hash label }

/-- The data members of `TorrentModelItem` other than the two cached visual
attributes. -/
structure TorrentModelItem where
  m_torrent : QTorrentHandle
  m_name : QString
  m_addedTime : QDateTime
  m_seedTime : QDateTime
  m_label : QString
  deriving DecidableEq, Repr

/-- The function `TorrentModelItem::hash()`, the hash query on the handle of the row. -/
def TorrentModelItem.hash (item : TorrentModelItem) : Option QString :=
  item.m_torrent.hash

/-- The constructor `TorrentModelItem::TorrentModelItem(h)`; `none` when a
query on `h` throws. -/
def TorrentModelItem.new (pd : TorrentPersistentData) (h : QTorrentHandle) :
    Option TorrentModelItem :=
  h.hash.bind fun hash =>
    let name := pd.getName hash
    (if name.isEmpty then h.name else some name).bind fun m_name =>
      some
        { m_torrent := h
          m_name := m_name
          m_addedTime := pd.getAddedDate hash
          m_seedTime := pd.getSeedDate hash
          m_label := pd.getLabel hash }

/-- The columns of the transfer list, and `other` for an `int` that is none of
them. -/
inductive Column where
  | TR_NAME
  | TR_PRIORITY
  | TR_SIZE
  | TR_PROGRESS
  | TR_STATUS
  | TR_SEEDS
  | TR_PEERS
  | TR_DLSPEED
  | TR_UPSPEED
  | TR_ETA
  | TR_RATIO
  | TR_LABEL
  | TR_ADD_DATE
  | TR_SEED_DATE
  | TR_TRACKER
  | TR_DLLIMIT
  | TR_UPLIMIT
  | other (n : Int)
  deriving DecidableEq, Repr

/-- The item data roles the source names, and `other` for the rest. -/
inductive Role where
  | DisplayRole
  | DecorationRole
  | ForegroundRole
  | other (n : Int)
  deriving DecidableEq, Repr

/-- What a call of `TorrentModelItem::setData` leaves behind: the row item, the
persistent data, the `labelChanged(old, new)` signals the call emitted, and
the value it returned (`none` when `invalid_handle` leaves the function). -/
structure SetDataResult where
  item : TorrentModelItem
  pd : TorrentPersistentData
  labelChanged : List (QString × QString)
  returned : Option Bool

/-- The function `TorrentModelItem::setData(column, value, role)`, `value` being the string
`value.toString()` gives. -/
def TorrentModelItem.setData (item : TorrentModelItem) (pd : TorrentPersistentData)
    (column : Column) (value : QString) (role : Role) : SetDataResult :=
  if role ≠ Role.DisplayRole then ⟨item, pd, [], some false⟩
  else
    match column with
    | .TR_NAME =>
      let item1 := { item with m_name := value }
      match item.m_torrent.hash with
      | none => ⟨item1, pd, [], none⟩
      | some hash => ⟨item1, pd.saveName hash value, [], some true⟩
    | .TR_LABEL =>
      let new_label := value
      if item.m_label ≠ new_label then
        let old_label := item.m_label
        let item1 := { item with m_label := new_label }
        match item.m_torrent.hash with
        | none => ⟨item1, pd, [], none⟩
        | some hash => ⟨item1, pd.saveLabel hash new_label, [(old_label, new_label)], some true⟩
      else ⟨item, pd, [], some true⟩
    | _ => ⟨item, pd, [], some false⟩

/-! ## List model -/

/-- The notifications the list model emits while rows are inserted or removed. -/
inductive Notification where
  | beginInsertRows (first last : Int)
  | torrentAdded (item : TorrentModelItem)
  | endInsertRows
  | beginRemoveRows (first last : Int)
  | endRemoveRows
  deriving DecidableEq, Repr

/-- The list model: the rows `m_torrents`, the log of the notifications emitted
so far, and whether `populate` has started the refresh timer and connected the
slots to the session. -/
structure TorrentModel where
  m_torrents : List TorrentModelItem
  emitted : List Notification
  listening : Bool
  deriving DecidableEq, Repr

/-- The model the constructor `TorrentModel::TorrentModel` builds. -/
def TorrentModel.empty : TorrentModel :=
  ⟨[], [], false⟩

/-- The model after a call, and whether `invalid_handle` left the call. -/
structure Outcome where
  model : TorrentModel
  raised : Bool
  deriving DecidableEq, Repr

/-- The loop of `TorrentModel::torrentRow(hash)` over the rows still to visit.
The source declares the counter as `int row;` and never gives it a value
before the loop, so the value the counter holds when the loop starts is the
argument `row`. A row whose `hash()` throws is skipped (`catch(invalid_handle&)`),
and `++row` is an `int` increment. -/
def torrentRow (row : Int) : List TorrentModelItem → QString → Int
  | [], _ => -1
  | it :: rest, hash =>
    match it.hash with
    | some x => if x = hash then row else torrentRow (toInt (row + 1)) rest hash
    | none => torrentRow (toInt (row + 1)) rest hash

/-- The slot `TorrentModel::addTorrent(h)`; `row0` is the value the counter of
`torrentRow` holds at its declaration. -/
def addTorrent (pd : TorrentPersistentData) (row0 : Int) (m : TorrentModel)
    (h : QTorrentHandle) : Outcome :=
  match h.hash with
  | none => ⟨m, true⟩
  | some hash =>
    if torrentRow row0 m.m_torrents hash < 0 then
      let size : Int := m.m_torrents.length
      let m1 := { m with emitted := m.emitted ++ [.beginInsertRows size size] }
      match TorrentModelItem.new pd h with
      | none => ⟨m1, true⟩
      | some item =>
        ⟨{ m1 with
            m_torrents := m1.m_torrents ++ [item]
            emitted := m1.emitted ++ [.torrentAdded item, .endInsertRows] }, false⟩
    else ⟨m, false⟩

/-- The slot `TorrentModel::removeTorrent(hash)`; `row0` is the value the counter of
`torrentRow` holds at its declaration. `QList::removeAt` ignores an index that
is not an index of the list. -/
def removeTorrent (row0 : Int) (m : TorrentModel) (hash : QString) : TorrentModel :=
  let row := torrentRow row0 m.m_torrents hash
  if row > 0 then
    { m with
      m_torrents := m.m_torrents.eraseIdx row.toNat
      emitted := m.emitted ++ [.beginRemoveRows row row, .endRemoveRows] }
  else m

/-- The loop of `TorrentModel::populate()` over the handles the session gave;
`rowInit k` is the value the counter of `torrentRow` holds at its declaration
in the call made for the handle number `k`. -/
def populateLoop (pd : TorrentPersistentData) (rowInit : Nat → Int) :
    Nat → TorrentModel → List QTorrentHandle → Outcome
  | _, m, [] => ⟨m, false⟩
  | k, m, h :: rest =>
    let o := addTorrent pd (rowInit k) m h
    if o.raised then o else populateLoop pd rowInit (k + 1) o.model rest

/-- The function `TorrentModel::populate()`, `torrents` being what `get_torrents()` returned. -/
def populate (pd : TorrentPersistentData) (rowInit : Nat → Int) (m : TorrentModel)
    (torrents : List QTorrentHandle) : Outcome :=
  let o := populateLoop pd rowInit 0 m torrents
  if o.raised then o else ⟨{ o.model with listening := true }, false⟩

/-- One call of a slot that changes the row list, with the value the counter of
`torrentRow` holds at its declaration in that call. -/
inductive Call where
  | addTorrent (row0 : Int) (h : QTorrentHandle)
  | removeTorrent (row0 : Int) (hash : QString)
  deriving DecidableEq, Repr

/-- The model after one call. -/
def Call.run (pd : TorrentPersistentData) (m : TorrentModel) : Call → TorrentModel
  | .addTorrent row0 h => (TorrentModelSpec.addTorrent pd row0 m h).model
  | .removeTorrent row0 hash => TorrentModelSpec.removeTorrent row0 m hash

/-- The model after a sequence of calls, made one after the other. -/
def runCalls (pd : TorrentPersistentData) (m : TorrentModel) (calls : List Call) :
    TorrentModel :=
  calls.foldl (Call.run pd) m

/-- The hashes of the rows, in row order. -/
def TorrentModel.hashes (m : TorrentModel) : List (Option QString) :=
  m.m_torrents.map TorrentModelItem.hash

/-! ## Status report -/

/-- Modelled from the spec: `TorrentStatusReport` (torrentmodel.h is not among
the sources) holds the five counts, all zero in a new report. The list has
fewer than 2^31 rows, so no count reaches the limit of its type. -/
structure TorrentStatusReport where
  nb_downloading : Nat := 0
  nb_seeding : Nat := 0
  nb_active : Nat := 0
  nb_inactive : Nat := 0
  nb_paused : Nat := 0
  deriving DecidableEq, Repr

/-- The second group of `case` labels of the `switch` in
`getTorrentStatusReport`, which `STATE_PAUSED_DL` falls through to. -/
def countInactiveDL (r : TorrentStatusReport) : TorrentStatusReport :=
  { r with nb_inactive := r.nb_inactive + 1, nb_downloading := r.nb_downloading + 1 }

/-- The fourth group of `case` labels of the `switch` in
`getTorrentStatusReport`, which `STATE_PAUSED_UP` falls through to. -/
def countInactiveUP (r : TorrentStatusReport) : TorrentStatusReport :=
  { r with nb_seeding := r.nb_seeding + 1, nb_inactive := r.nb_inactive + 1 }

/-- The `switch` of `getTorrentStatusReport` for one row of state `s`. -/
def reportRow (r : TorrentStatusReport) (s : State) : TorrentStatusReport :=
  match s with
  | STATE_DOWNLOADING =>
    { r with nb_active := r.nb_active + 1, nb_downloading := r.nb_downloading + 1 }
  | STATE_PAUSED_DL => countInactiveDL { r with nb_paused := r.nb_paused + 1 }
  | STATE_STALLED_DL | STATE_CHECKING_DL | STATE_QUEUED_DL => countInactiveDL r
  | STATE_SEEDING =>
    { r with nb_active := r.nb_active + 1, nb_seeding := r.nb_seeding + 1 }
  | STATE_PAUSED_UP => countInactiveUP { r with nb_paused := r.nb_paused + 1 }
  | STATE_STALLED_UP | STATE_CHECKING_UP | STATE_QUEUED_UP => countInactiveUP r
  | STATE_INVALID => r

/-- The value of `TorrentModelItem::data(TR_STATUS, Qt::DisplayRole)`: the value `state()`
returns. -/
def data_TR_STATUS (item : TorrentModelItem) : State :=
  state item.m_torrent

/-- The loop of `TorrentModel::getTorrentStatusReport()` from the report `r`. -/
def reportLoop (r : TorrentStatusReport) (rows : List TorrentModelItem) :
    TorrentStatusReport :=
  rows.foldl (fun acc it => reportRow acc (data_TR_STATUS it)) r

/-- The function `TorrentModel::getTorrentStatusReport()`. -/
def getTorrentStatusReport (m : TorrentModel) : TorrentStatusReport :=
  reportLoop {} m.m_torrents

/-! ## Concrete handles and rows -/

/-- A valid handle of the given hash: a downloading torrent without traffic that
is connected to `num_seeds` full sources while the tracker reports
`num_complete` of them. -/
def handleOf (hash : QString) (num_seeds num_complete : Int) : QTorrentHandle :=
  { hash := some hash, name := some "torrent", is_paused := some false,
    is_queued := some false, is_seed := some false, state := some .downloading,
    download_payload_rate := some 0, upload_payload_rate := some 0,
    num_seeds := some num_seeds, num_complete := some num_complete,
    num_peers := some num_seeds, num_incomplete := some 0 }

/-- A handle that has become invalid: every query throws. -/
def invalidHandle : QTorrentHandle :=
  { hash := none, name := none, is_paused := none, is_queued := none, is_seed := none,
    state := none, download_payload_rate := none, upload_payload_rate := none,
    num_seeds := none, num_complete := none, num_peers := none, num_incomplete := none }

/-- Persistent data with nothing stored. -/
def noData : TorrentPersistentData :=
  { getName := fun _ => "", getLabel := fun _ => "", getAddedDate := fun _ => 0,
    getSeedDate := fun _ => 0 }

/-- The row item the constructor builds from `handleOf hash 0 0` when nothing is
stored for the hash. -/
def rowOf (hash : QString) : TorrentModelItem :=
  { m_torrent := handleOf hash 0 0, m_name := "torrent", m_addedTime := 0, m_seedTime := 0,
    m_label := "" }

/-! ## Classification -/

/-- C3: a row whose handle answers `is_paused` with true and answers `is_seed`
is classified paused, `STATE_PAUSED_UP` for a seed and `STATE_PAUSED_DL`
otherwise, whatever the handle answers to `is_queued`, `state` and the two
payload rate queries. -/
theorem state_paused (t : QTorrentHandle) (seed : Bool)
    (hp : t.is_paused = some true) (hs : t.is_seed = some seed) :
    state t = if seed then STATE_PAUSED_UP else STATE_PAUSED_DL := by
  simp [state, classify, stateTry, hp, hs]

/-- A queued, downloading handle with traffic in both directions that is also
paused and not a seed is classified `STATE_PAUSED_DL`. -/
theorem state_paused_witness :
    state
      { hash := some "a", name := some "n", is_paused := some true, is_queued := some true,
        is_seed := some false, state := some .downloading,
        download_payload_rate := some 5, upload_payload_rate := some 7,
        num_seeds := some 1, num_complete := some 1, num_peers := some 1,
        num_incomplete := some 1 } = STATE_PAUSED_DL :=
  state_paused _ false rfl rfl

/-- C4: whichever query `state()` makes on the handle throws `invalid_handle`
(`is_paused`; `is_seed` of a paused row; `is_queued`; `is_seed` of a queued row;
`state`; the download rate of a downloading row; the upload rate of a finished
or seeding row; `is_seed` of a checking row), the `try` block is left by the
exception, the handler classifies the row `STATE_INVALID` with the error icon,
and `state()` returns that value instead of passing the exception on. -/
theorem state_invalid_handle (t : QTorrentHandle)
    (h : t.is_paused = none ∨
      (t.is_paused = some true ∧ t.is_seed = none) ∨
      (t.is_paused = some false ∧ t.is_queued = none) ∨
      (t.is_paused = some false ∧ t.is_queued = some true ∧ t.is_seed = none) ∨
      (t.is_paused = some false ∧ t.is_queued = some false ∧ t.state = none) ∨
      (t.is_paused = some false ∧ t.is_queued = some false ∧
        (t.state = some .allocating ∨ t.state = some .downloading_metadata ∨
          t.state = some .downloading) ∧ t.download_payload_rate = none) ∨
      (t.is_paused = some false ∧ t.is_queued = some false ∧
        (t.state = some .finished ∨ t.state = some .seeding) ∧
        t.upload_payload_rate = none) ∨
      (t.is_paused = some false ∧ t.is_queued = some false ∧
        (t.state = some .queued_for_checking ∨ t.state = some .checking_resume_data ∨
          t.state = some .checking_files) ∧ t.is_seed = none)) :
    stateTry t = none ∧
      classify t = ⟨STATE_INVALID, ":/Icons/skin/error.png", "red"⟩ ∧
      state t = STATE_INVALID := by
  have key : stateTry t = none := by
    rcases h with h | ⟨h1, h2⟩ | ⟨h1, h2⟩ | ⟨h1, h2, h3⟩ | ⟨h1, h2, h3⟩ |
      ⟨h1, h2, h3, h4⟩ | ⟨h1, h2, h3, h4⟩ | ⟨h1, h2, h3, h4⟩
    · simp [stateTry, h]
    · simp [stateTry, h1, h2]
    · simp [stateTry, h1, h2]
    · simp [stateTry, h1, h2, h3]
    · simp [stateTry, h1, h2, h3]
    · rcases h3 with h3 | h3 | h3 <;> simp [stateTry, stateSwitch, h1, h2, h3, h4]
    · rcases h3 with h3 | h3 <;> simp [stateTry, stateSwitch, h1, h2, h3, h4]
    · rcases h3 with h3 | h3 | h3 <;> simp [stateTry, stateSwitch, h1, h2, h3, h4]
  refine ⟨key, ?_, ?_⟩ <;> simp [state, classify, key]

/-- A handle that answers `is_paused` and `is_queued` with false and `state`
with `downloading`, and then throws on the download rate query, is classified
`STATE_INVALID`. -/
theorem state_invalid_handle_witness :
    state
      { hash := some "a", name := some "n", is_paused := some false, is_queued := some false,
        is_seed := some false, state := some .downloading,
        download_payload_rate := none, upload_payload_rate := some 7,
        num_seeds := some 1, num_complete := some 1, num_peers := some 1,
        num_incomplete := some 1 } = STATE_INVALID :=
  (state_invalid_handle _
    (Or.inr (Or.inr (Or.inr (Or.inr (Or.inr (Or.inl
      ⟨rfl, rfl, Or.inr (Or.inr rfl), rfl⟩))))))).2.2

/-! ## Status report -/

/-- The counts of `reportLoop` are the counts of the starting report plus the
number of rows of each kind. -/
theorem reportLoop_counts (rows : List TorrentModelItem) (r : TorrentStatusReport) :
    let states := rows.map data_TR_STATUS
    (reportLoop r rows).nb_paused = r.nb_paused +
        states.countP (fun s => s = STATE_PAUSED_DL || s = STATE_PAUSED_UP) ∧
    (reportLoop r rows).nb_active = r.nb_active +
        states.countP (fun s => s = STATE_DOWNLOADING || s = STATE_SEEDING) ∧
    (reportLoop r rows).nb_inactive = r.nb_inactive +
        states.countP (fun s =>
          s = STATE_PAUSED_DL || s = STATE_PAUSED_UP || s = STATE_STALLED_DL ||
          s = STATE_STALLED_UP || s = STATE_CHECKING_DL || s = STATE_CHECKING_UP ||
          s = STATE_QUEUED_DL || s = STATE_QUEUED_UP) ∧
    (reportLoop r rows).nb_downloading = r.nb_downloading +
        states.countP (fun s =>
          s = STATE_DOWNLOADING || s = STATE_PAUSED_DL || s = STATE_STALLED_DL ||
          s = STATE_CHECKING_DL || s = STATE_QUEUED_DL) ∧
    (reportLoop r rows).nb_seeding = r.nb_seeding +
        states.countP (fun s =>
          s = STATE_SEEDING || s = STATE_PAUSED_UP || s = STATE_STALLED_UP ||
          s = STATE_CHECKING_UP || s = STATE_QUEUED_UP) ∧
    (reportLoop r rows).nb_downloading + (reportLoop r rows).nb_seeding =
        r.nb_downloading + r.nb_seeding + states.countP (fun s => s != STATE_INVALID) ∧
    (reportLoop r rows).nb_active + (reportLoop r rows).nb_inactive =
        r.nb_active + r.nb_inactive + states.countP (fun s => s != STATE_INVALID) := by
  induction rows generalizing r with
  | nil => simp [reportLoop]
  | cons it rest ih =>
    have step : reportLoop r (it :: rest) = reportLoop (reportRow r (data_TR_STATUS it)) rest := rfl
    have ih1 := ih (reportRow r (data_TR_STATUS it))
    simp only [step, List.map_cons] at ih1 ⊢
    obtain ⟨h1, h2, h3, h4, h5, h6, h7⟩ := ih1
    rw [h4, h5] at h6
    rw [h2, h3] at h7
    rw [h1, h2, h3, h4, h5]
    revert h6 h7
    cases hs : data_TR_STATUS it <;>
      simp [reportRow, countInactiveDL, countInactiveUP, List.countP_cons] <;> omega

/-- C8: in `getTorrentStatusReport` a paused downloading row adds one to
`nb_paused`, one to `nb_inactive` and one to `nb_downloading`, a paused seeding
row adds one to `nb_paused`, `nb_inactive` and `nb_seeding`; in the report,
`nb_paused` is the number of paused rows, `nb_active` the number of downloading
or seeding rows, `nb_inactive` the number of paused, stalled, checking or queued
rows, `nb_downloading` the number of downloading, paused downloading, stalled
downloading, checking downloading or queued downloading rows, `nb_seeding` the
number of seeding, paused seeding, stalled seeding, checking seeding or queued
seeding rows (so each row is counted once in each counter that applies to it),
and `nb_active + nb_inactive = nb_downloading + nb_seeding` is the number of
rows not classified invalid. -/
theorem getTorrentStatusReport_counts (m : TorrentModel) :
    (∀ r : TorrentStatusReport, reportRow r STATE_PAUSED_DL =
      { r with
        nb_paused := r.nb_paused + 1
        nb_inactive := r.nb_inactive + 1
        nb_downloading := r.nb_downloading + 1 }) ∧
    (∀ r : TorrentStatusReport, reportRow r STATE_PAUSED_UP =
      { r with
        nb_paused := r.nb_paused + 1
        nb_inactive := r.nb_inactive + 1
        nb_seeding := r.nb_seeding + 1 }) ∧
    (getTorrentStatusReport m).nb_paused =
      (m.m_torrents.map data_TR_STATUS).countP
        (fun s => s = STATE_PAUSED_DL || s = STATE_PAUSED_UP) ∧
    (getTorrentStatusReport m).nb_active =
      (m.m_torrents.map data_TR_STATUS).countP
        (fun s => s = STATE_DOWNLOADING || s = STATE_SEEDING) ∧
    (getTorrentStatusReport m).nb_inactive =
      (m.m_torrents.map data_TR_STATUS).countP
        (fun s =>
          s = STATE_PAUSED_DL || s = STATE_PAUSED_UP || s = STATE_STALLED_DL ||
          s = STATE_STALLED_UP || s = STATE_CHECKING_DL || s = STATE_CHECKING_UP ||
          s = STATE_QUEUED_DL || s = STATE_QUEUED_UP) ∧
    (getTorrentStatusReport m).nb_downloading =
      (m.m_torrents.map data_TR_STATUS).countP
        (fun s =>
          s = STATE_DOWNLOADING || s = STATE_PAUSED_DL || s = STATE_STALLED_DL ||
          s = STATE_CHECKING_DL || s = STATE_QUEUED_DL) ∧
    (getTorrentStatusReport m).nb_seeding =
      (m.m_torrents.map data_TR_STATUS).countP
        (fun s =>
          s = STATE_SEEDING || s = STATE_PAUSED_UP || s = STATE_STALLED_UP ||
          s = STATE_CHECKING_UP || s = STATE_QUEUED_UP) ∧
    (getTorrentStatusReport m).nb_active + (getTorrentStatusReport m).nb_inactive =
      (getTorrentStatusReport m).nb_downloading + (getTorrentStatusReport m).nb_seeding ∧
    (getTorrentStatusReport m).nb_downloading + (getTorrentStatusReport m).nb_seeding =
      (m.m_torrents.map data_TR_STATUS).countP (fun s => s != STATE_INVALID) := by
  obtain ⟨h1, h2, h3, h4, h5, h6, h7⟩ := reportLoop_counts m.m_torrents {}
  simp only [zero_add] at h1 h2 h3 h4 h5 h6 h7
  refine ⟨fun r => rfl, fun r => rfl, h1, h2, h3, h4, h5, ?_, h6⟩
  unfold getTorrentStatusReport
  rw [h6, h7]

/-! ## The seeds column -/

/-- An `int` computation whose result fits in 32 bits gives that result. -/
theorem toInt_of_range (x : Int) (h0 : -2147483648 ≤ x) (h1 : x ≤ 2147483647) :
    toInt x = x := by
  unfold toInt
  rw [Int.emod_eq_of_lt (by omega) (by omega)]
  omega

/-- A non-negative `int` keeps its value when converted to `qulonglong`. -/
theorem toULongLong_of_range (x : Int) (h0 : 0 ≤ x) (h1 : x < 18446744073709551616) :
    toULongLong x = x.toNat := by
  unfold toULongLong
  rw [Int.emod_eq_of_lt h0 h1]

/-- A `qulonglong` sum below 2^64 is the sum. -/
theorem addULongLong_of_range (a b : Nat) (h : a + b < 18446744073709551616) :
    addULongLong a b = a + b := by
  unfold addULongLong
  exact Nat.mod_eq_of_lt h

/-- The seeds value of a row with more connected than reported full sources,
as long as `num_seeds()*1000000` fits in an `int`. -/
theorem seedsValue_of_lt (s c : Int) (h0 : 0 ≤ s) (h1 : s ≤ 2147) (h : c < s) :
    seedsValue s c = (s * 1000000).toNat + 1 := by
  unfold seedsValue
  simp only [ge_iff_le]
  rw [if_neg (by omega), toInt_of_range _ (by omega) (by omega),
    toULongLong_of_range _ (by omega) (by omega), addULongLong_of_range _ _ (by omega)]

/-- The seeds value of a row with at least as many reported as connected full
sources, as long as the two `int` products fit in an `int`. -/
theorem seedsValue_of_ge (s c : Int) (h0 : 0 ≤ s) (h1 : s ≤ 2147) (h : s ≤ c)
    (hc : c ≤ 214748364) :
    seedsValue s c = (s * 1000000).toNat + (c * 10).toNat := by
  unfold seedsValue
  simp only [ge_iff_le]
  rw [if_pos h, toInt_of_range _ (by omega) (by omega),
    toULongLong_of_range _ (by omega) (by omega), toInt_of_range _ (by omega) (by omega),
    toULongLong_of_range _ (by omega) (by omega), addULongLong_of_range _ _ (by omega)]

/-- With at most 2147 connected full sources, more of them than the tracker
reports, the seeds value divided by 1,000,000 is the number of connected full
sources. -/
theorem data_TR_SEEDS_div (t : QTorrentHandle) (s c : Int)
    (hs : t.num_seeds = some s) (hc : t.num_complete = some c)
    (h0 : 0 ≤ s) (h1 : s ≤ 2147) (h : s > c) :
    ∃ v, data_TR_SEEDS t = some v ∧ ((v / 1000000 : Nat) : Int) = s := by
  refine ⟨seedsValue s c, by simp [data_TR_SEEDS, hs, hc], ?_⟩
  rw [seedsValue_of_lt s c h0 h1 h]
  omega

/-- C5, at 2148 connected full sources of which the tracker reports 5: the
`int` product `2148*1000000` does not fit in 32 bits, the seeds value is
18446744071562584321, and divided by 1,000,000 it is 18446744071562, not 2148. -/
theorem data_TR_SEEDS_overflow :
    data_TR_SEEDS (handleOf "a" 2148 5) = some 18446744071562584321 ∧
      (18446744071562584321 / 1000000 : Nat) = 18446744071562 ∧
      2147483647 < (2148 : Int) * 1000000 := by
  decide

/-- C9, as stated, fails: a row with no connected full source and 100001
reported ones has the seeds value 1000010, a row with one connected full
source and none reported has the smaller seeds value 1000001. -/
theorem data_TR_SEEDS_not_monotone :
    data_TR_SEEDS (handleOf "a" 0 100001) = some 1000010 ∧
      data_TR_SEEDS (handleOf "b" 1 0) = some 1000001 ∧
      ¬ (1000010 < 1000001) := by
  decide

/-- C9, amended: for two rows with non-negative counts, at most 2147 connected
and at most 214748364 reported full sources each (no `int` product overflows),
the first with fewer than 100000 reported full sources, fewer connected full
sources in the first row give a strictly smaller seeds value. -/
theorem data_TR_SEEDS_lt (t1 t2 : QTorrentHandle) (s1 c1 s2 c2 : Int)
    (hs1 : t1.num_seeds = some s1) (hc1 : t1.num_complete = some c1)
    (hs2 : t2.num_seeds = some s2) (hc2 : t2.num_complete = some c2)
    (h0 : 0 ≤ s1) (h1 : 0 ≤ c1) (h2 : 0 ≤ c2) (hlt : s1 < s2) (hmax : s2 ≤ 2147)
    (hb1 : c1 < 100000) (hb2 : c2 ≤ 214748364) :
    ∃ v1 v2, data_TR_SEEDS t1 = some v1 ∧ data_TR_SEEDS t2 = some v2 ∧ v1 < v2 := by
  refine ⟨seedsValue s1 c1, seedsValue s2 c2, by simp [data_TR_SEEDS, hs1, hc1],
    by simp [data_TR_SEEDS, hs2, hc2], ?_⟩
  rcases lt_or_le c1 s1 with a | a <;> rcases lt_or_le c2 s2 with b | b
  · rw [seedsValue_of_lt _ _ h0 (by omega) a, seedsValue_of_lt _ _ (by omega) hmax b]
    omega
  · rw [seedsValue_of_lt _ _ h0 (by omega) a, seedsValue_of_ge _ _ (by omega) hmax b hb2]
    omega
  · rw [seedsValue_of_ge _ _ h0 (by omega) a (by omega),
      seedsValue_of_lt _ _ (by omega) hmax b]
    omega
  · rw [seedsValue_of_ge _ _ h0 (by omega) a (by omega),
      seedsValue_of_ge _ _ (by omega) hmax b hb2]
    omega

/-- A row with 3 connected and 99999 reported full sources has a smaller seeds
value than a row with 4 connected full sources and none reported. -/
theorem data_TR_SEEDS_lt_witness :
    ∃ v1 v2, data_TR_SEEDS (handleOf "a" 3 99999) = some v1 ∧
      data_TR_SEEDS (handleOf "b" 4 0) = some v2 ∧ v1 < v2 :=
  data_TR_SEEDS_lt (handleOf "a" 3 99999) (handleOf "b" 4 0) 3 99999 4 0 rfl rfl rfl rfl
    (by decide) (by decide) (by decide) (by decide) (by decide) (by decide) (by decide)

/-! ## Editing the label -/

/-- C6, as stated, fails on a row whose handle has become invalid: writing
"new" over the label "old" changes the label of the row, but the hash query
made for `saveLabel` throws, so nothing is saved, no `labelChanged` is emitted
and `setData` is left by the exception instead of returning true. -/
theorem setData_invalid_handle_label :
    ((⟨invalidHandle, "n", 0, 0, "old"⟩ : TorrentModelItem).setData noData
        Column.TR_LABEL "new" Role.DisplayRole).returned = none ∧
      ((⟨invalidHandle, "n", 0, 0, "old"⟩ : TorrentModelItem).setData noData
        Column.TR_LABEL "new" Role.DisplayRole).labelChanged = [] ∧
      ((⟨invalidHandle, "n", 0, 0, "old"⟩ : TorrentModelItem).setData noData
        Column.TR_LABEL "new" Role.DisplayRole).item.m_label = "new" ∧
      ((⟨invalidHandle, "n", 0, 0, "old"⟩ : TorrentModelItem).setData noData
        Column.TR_LABEL "new" Role.DisplayRole).pd.getLabel "a" = "" := by
  decide

/-- C6, amended: writing `V` to the label column with the display role, on
every row (also one whose handle has become invalid), emits nothing, leaves
the row and the persistent data unchanged and returns true when `V` is the
label `L` of the row; and on a row whose handle answers the hash query, when
`V` differs from `L`, the label becomes `V` (nothing else in the row changes),
`V` is saved as the label of the hash of the row (nothing else in the
persistent data changes), exactly one `labelChanged(L, V)` is emitted and
`setData` returns true. -/
theorem setData_label (item : TorrentModelItem) (pd : TorrentPersistentData)
    (V : QString) :
    (V = item.m_label →
      (item.setData pd Column.TR_LABEL V Role.DisplayRole).item = item ∧
      (item.setData pd Column.TR_LABEL V Role.DisplayRole).pd = pd ∧
      (item.setData pd Column.TR_LABEL V Role.DisplayRole).labelChanged = [] ∧
      (item.setData pd Column.TR_LABEL V Role.DisplayRole).returned = some true) ∧
    (∀ hash : QString, item.m_torrent.hash = some hash → V ≠ item.m_label →
      (item.setData pd Column.TR_LABEL V Role.DisplayRole).item = { item with m_label := V } ∧
      (item.setData pd Column.TR_LABEL V Role.DisplayRole).pd = pd.saveLabel hash V ∧
      (item.setData pd Column.TR_LABEL V Role.DisplayRole).pd.getLabel hash = V ∧
      (item.setData pd Column.TR_LABEL V Role.DisplayRole).labelChanged = [(item.m_label, V)] ∧
      (item.setData pd Column.TR_LABEL V Role.DisplayRole).returned = some true) := by
  constructor
  · intro he
    simp [TorrentModelItem.setData, he]
  · intro hash hh hne
    have hne1 : ¬ item.m_label = V := fun e => hne e.symm
    simp [TorrentModelItem.setData, hh, hne1, TorrentPersistentData.saveLabel]

/-- Writing "film" over the empty label of a valid row of hash "a" saves "film"
for "a", emits `labelChanged("", "film")` once and returns true; writing the
label "old" over the label "old" of a row whose handle has become invalid
emits nothing, leaves the label as it is and returns true. -/
theorem setData_label_witness :
    ((rowOf "a").setData noData Column.TR_LABEL "film" Role.DisplayRole).pd.getLabel "a" =
        "film" ∧
      ((rowOf "a").setData noData Column.TR_LABEL "film" Role.DisplayRole).labelChanged =
        [("", "film")] ∧
      ((rowOf "a").setData noData Column.TR_LABEL "film" Role.DisplayRole).returned =
        some true ∧
      ((⟨invalidHandle, "n", 0, 0, "old"⟩ : TorrentModelItem).setData noData
        Column.TR_LABEL "old" Role.DisplayRole).labelChanged = [] ∧
      ((⟨invalidHandle, "n", 0, 0, "old"⟩ : TorrentModelItem).setData noData
        Column.TR_LABEL "old" Role.DisplayRole).item.m_label = "old" ∧
      ((⟨invalidHandle, "n", 0, 0, "old"⟩ : TorrentModelItem).setData noData
        Column.TR_LABEL "old" Role.DisplayRole).returned = some true :=
  have h1 := (setData_label (rowOf "a") noData "film").2 "a" rfl (by decide)
  have h2 := (setData_label (⟨invalidHandle, "n", 0, 0, "old"⟩ : TorrentModelItem)
    noData "old").1 rfl
  ⟨h1.2.2.1, h1.2.2.2.1, h1.2.2.2.2, h2.2.2.1, congrArg TorrentModelItem.m_label h2.1,
    h2.2.2.2⟩

/-! ## Looking a hash up -/

/-- A hash that no row has is not found: `torrentRow` returns -1, whatever value
its counter starts from. -/
theorem torrentRow_of_not_mem (row : Int) (rows : List TorrentModelItem) (hash : QString)
    (h : some hash ∉ rows.map TorrentModelItem.hash) : torrentRow row rows hash = -1 := by
  induction rows generalizing row with
  | nil => rfl
  | cons it rest ih =>
    simp only [List.map_cons, List.mem_cons, not_or] at h
    obtain ⟨h1, h2⟩ := h
    unfold torrentRow
    cases hx : it.hash with
    | none => exact ih _ h2
    | some x =>
      have hne : ¬ x = hash := fun e => h1 (by rw [hx, e])
      simp only [hne, if_false]
      exact ih _ h2

/-- A hash that some row has is found at the position of the first such row,
counted from the value the counter starts from, as long as the counter stays
in the range of `int`. -/
theorem torrentRow_of_mem (row : Int) (rows : List TorrentModelItem) (hash : QString)
    (hlo : -2147483648 ≤ row) (hhi : row + rows.length ≤ 2147483647)
    (h : some hash ∈ rows.map TorrentModelItem.hash) :
    torrentRow row rows hash =
      row + (rows.findIdx fun it => decide (it.hash = some hash) : Nat) ∧
    rows.findIdx (fun it => decide (it.hash = some hash)) < rows.length := by
  induction rows generalizing row with
  | nil => simp at h
  | cons it rest ih =>
    unfold torrentRow
    by_cases hit : it.hash = some hash
    · simp [hit, List.findIdx_cons]
    · have hmem : some hash ∈ rest.map TorrentModelItem.hash := by
        simp only [List.map_cons, List.mem_cons] at h
        rcases h with h | h
        · exact absurd h.symm hit
        · exact h
      simp only [List.length_cons, Nat.cast_add, Nat.cast_one] at hhi
      have hwrap : toInt (row + 1) = row + 1 := toInt_of_range _ (by omega) (by omega)
      rw [hwrap]
      obtain ⟨ih1, ih2⟩ := ih (row + 1) (by omega) (by omega) hmem
      have hd : decide (it.hash = some hash) = false := by simp [hit]
      rw [List.findIdx_cons, hd]
      simp only [cond_false, List.length_cons]
      refine ⟨?_, by omega⟩
      cases hx : it.hash with
      | none => simp only; rw [ih1]; push_cast; ring
      | some x =>
        have hne : ¬ x = hash := fun e => hit (by rw [hx, e])
        simp only [hne, if_false]
        rw [ih1]; push_cast; ring

/-! ## Removing a row -/

/-- C1, on the model with the rows "a" and "b": `removeTorrent("a")` leaves the
model as it is when the counter of `torrentRow` starts from 0 (the row found
is row 0 and the guard is `row > 0`), and whatever value the counter starts
from the rows left are never the single row "b". -/
theorem removeTorrent_first_row :
    removeTorrent 0 ⟨[rowOf "a", rowOf "b"], [], true⟩ "a" =
        ⟨[rowOf "a", rowOf "b"], [], true⟩ ∧
      ∀ row0 : Int,
        (removeTorrent row0 ⟨[rowOf "a", rowOf "b"], [], true⟩ "a").m_torrents ≠
          [rowOf "b"] := by
  constructor
  · decide
  · intro row0
    have ht : torrentRow row0 [rowOf "a", rowOf "b"] "a" = row0 := by
      simp [torrentRow, TorrentModelItem.hash, rowOf, handleOf]
    unfold removeTorrent
    simp only [ht]
    split_ifs with hpos
    · obtain ⟨n, hn⟩ : ∃ n, row0.toNat = n + 1 := ⟨row0.toNat - 1, by omega⟩
      rw [hn]
      have hab : [rowOf "a"] ≠ [rowOf "b"] := by decide
      have habb : [rowOf "a", rowOf "b"] ≠ [rowOf "b"] := by decide
      cases n with
      | zero => exact hab
      | succ k => cases k <;> exact habb
    · decide

/-- When the counter of `torrentRow` starts from 0 and the first row that has
the hash is not row 0, `removeTorrent` deletes that row and no other. -/
theorem removeTorrent_later_row (m : TorrentModel) (hash : QString)
    (hlen : (m.m_torrents.length : Int) ≤ 2147483647)
    (hmem : some hash ∈ m.hashes)
    (hpos : 0 < m.m_torrents.findIdx fun it => decide (it.hash = some hash)) :
    (removeTorrent 0 m hash).m_torrents =
        m.m_torrents.eraseIdx (m.m_torrents.findIdx fun it => decide (it.hash = some hash)) ∧
      (removeTorrent 0 m hash).m_torrents.length + 1 = m.m_torrents.length := by
  obtain ⟨h1, h2⟩ := torrentRow_of_mem 0 m.m_torrents hash (by omega) (by omega) hmem
  have hrow : torrentRow 0 m.m_torrents hash > 0 := by rw [h1]; omega
  have hnat : (torrentRow 0 m.m_torrents hash).toNat =
      m.m_torrents.findIdx fun it => decide (it.hash = some hash) := by rw [h1]; omega
  unfold removeTorrent
  simp only [hrow, if_true, hnat, true_and]
  rw [List.length_eraseIdx, if_pos h2]
  omega

/-! ## Adding a row -/

/-- When the counter of `torrentRow` starts from a value that is not negative
and stays in the range of `int`, `addTorrent` with a handle whose hash some
row has changes nothing: the rows and the log of notifications are the same,
and nothing is thrown. -/
theorem addTorrent_of_present (pd : TorrentPersistentData) (row0 : Int) (m : TorrentModel)
    (h : QTorrentHandle) (hash : QString) (h0 : 0 ≤ row0)
    (hmax : row0 + m.m_torrents.length ≤ 2147483647) (hh : h.hash = some hash)
    (hmem : some hash ∈ m.hashes) : addTorrent pd row0 m h = ⟨m, false⟩ := by
  obtain ⟨h1, _⟩ := torrentRow_of_mem row0 m.m_torrents hash (by omega) hmax hmem
  have hrow : ¬ torrentRow row0 m.m_torrents hash < 0 := by rw [h1]; omega
  simp [addTorrent, hh, hrow]

/-- C2, on the model with the single row "a": when the counter of `torrentRow`
holds -1 at its declaration, the lookup of "a" returns -1 although row 0 has
that hash, and `addTorrent` with a handle of hash "a" appends a second row "a"
and emits the insertion notifications and `torrentAdded`. -/
theorem addTorrent_present_appends :
    torrentRow (-1) [rowOf "a"] "a" = -1 ∧
      addTorrent noData (-1) ⟨[rowOf "a"], [], true⟩ (handleOf "a" 0 0) =
        ⟨⟨[rowOf "a", rowOf "a"],
          [.beginInsertRows 1 1, .torrentAdded (rowOf "a"), .endInsertRows], true⟩, false⟩ := by
  decide

/-- The constructor of the row item succeeds on a handle that answers the hash
and the name query, and the row it builds holds that handle. -/
theorem TorrentModelItem.new_of_valid (pd : TorrentPersistentData) (h : QTorrentHandle)
    (x n : QString) (hh : h.hash = some x) (hn : h.name = some n) :
    ∃ item, TorrentModelItem.new pd h = some item ∧ item.m_torrent = h := by
  unfold TorrentModelItem.new
  by_cases he : (pd.getName x).isEmpty = true <;> simp [hh, hn, he]

/-- Whatever value the counter of `torrentRow` starts from, `addTorrent` with a
handle whose hash no row has appends the row the constructor builds, between
the two insertion notifications and with `torrentAdded`. -/
theorem addTorrent_of_absent (pd : TorrentPersistentData) (row0 : Int) (m : TorrentModel)
    (h : QTorrentHandle) (hash : QString) (item : TorrentModelItem)
    (hh : h.hash = some hash) (hnot : some hash ∉ m.hashes)
    (hnew : TorrentModelItem.new pd h = some item) :
    addTorrent pd row0 m h =
      ⟨{ m with
          m_torrents := m.m_torrents ++ [item]
          emitted := m.emitted ++ [.beginInsertRows m.m_torrents.length m.m_torrents.length] ++
            [.torrentAdded item, .endInsertRows] }, false⟩ := by
  have hrow : torrentRow row0 m.m_torrents hash = -1 :=
    torrentRow_of_not_mem row0 m.m_torrents hash hnot
  simp [addTorrent, hh, hrow, hnew]

/-- The loop of `populate` over valid handles whose hashes are pairwise distinct
and differ from the hashes of the rows already there appends one row for each
handle, in the order of the handles, and nothing is thrown. -/
theorem populateLoop_rows (pd : TorrentPersistentData) (rowInit : Nat → Int)
    (torrents : List QTorrentHandle) (k : Nat) (m : TorrentModel)
    (hv : ∀ h ∈ torrents, h.hash ≠ none ∧ h.name ≠ none)
    (hd : (m.hashes ++ torrents.map QTorrentHandle.hash).Nodup) :
    (populateLoop pd rowInit k m torrents).raised = false ∧
      (populateLoop pd rowInit k m torrents).model.m_torrents.map TorrentModelItem.m_torrent =
        m.m_torrents.map TorrentModelItem.m_torrent ++ torrents ∧
      (populateLoop pd rowInit k m torrents).model.listening = m.listening := by
  induction torrents generalizing k m with
  | nil => simp [populateLoop]
  | cons h rest ih =>
    obtain ⟨hh, hn⟩ := hv h (List.mem_cons_self _ _)
    obtain ⟨x, hx⟩ := Option.ne_none_iff_exists'.mp hh
    obtain ⟨n, hn⟩ := Option.ne_none_iff_exists'.mp hn
    obtain ⟨item, hnew, hitem⟩ := TorrentModelItem.new_of_valid pd h x n hx hn
    have hnot : some x ∉ m.hashes := by
      intro hin
      have hdis := (List.nodup_append.mp hd).2.2
      exact hdis hin (by simp [hx])
    have hadd := addTorrent_of_absent pd (rowInit k) m h x item hx hnot hnew
    have hitemhash : item.hash = h.hash := by
      unfold TorrentModelItem.hash
      rw [hitem]
    have hd2 : (TorrentModel.hashes
        { m with
          m_torrents := m.m_torrents ++ [item]
          emitted := m.emitted ++ [.beginInsertRows m.m_torrents.length m.m_torrents.length] ++
            [.torrentAdded item, .endInsertRows] } ++
        rest.map QTorrentHandle.hash).Nodup := by
      simpa [TorrentModel.hashes, hitemhash] using hd
    obtain ⟨r1, r2, r3⟩ := ih (k + 1) _ (fun h2 hm => hv h2 (List.mem_cons_of_mem _ hm)) hd2
    unfold populateLoop
    simp only [hadd, Bool.false_eq_true, if_false]
    refine ⟨r1, ?_, r3⟩
    rw [r2]
    simp [hitem]

/-- The rows of the model after `populate` on the empty model hold the handles
the session gave, in the order the session gave them, when these handles are
valid and their hashes pairwise distinct; this does not depend on the values
the counter of `torrentRow` starts from. -/
theorem populate_rows (pd : TorrentPersistentData) (rowInit : Nat → Int)
    (torrents : List QTorrentHandle)
    (hv : ∀ h ∈ torrents, h.hash ≠ none ∧ h.name ≠ none)
    (hd : (torrents.map QTorrentHandle.hash).Nodup) :
    (populate pd rowInit TorrentModel.empty torrents).raised = false ∧
      (populate pd rowInit TorrentModel.empty torrents).model.m_torrents.map
        TorrentModelItem.m_torrent = torrents ∧
      (populate pd rowInit TorrentModel.empty torrents).model.hashes =
        torrents.map QTorrentHandle.hash ∧
      (populate pd rowInit TorrentModel.empty torrents).model.m_torrents.length =
        torrents.length := by
  obtain ⟨r1, r2, _⟩ := populateLoop_rows pd rowInit torrents 0 TorrentModel.empty hv
    (by simpa [TorrentModel.hashes, TorrentModel.empty] using hd)
  have hrows : (populate pd rowInit TorrentModel.empty torrents).model.m_torrents =
      (populateLoop pd rowInit 0 TorrentModel.empty torrents).model.m_torrents := by
    simp [populate, r1]
  have hmap : (populate pd rowInit TorrentModel.empty torrents).model.m_torrents.map
      TorrentModelItem.m_torrent = torrents := by
    rw [hrows, r2]
    simp [TorrentModel.empty]
  refine ⟨by simp [populate, r1], hmap, ?_, ?_⟩
  · have : (populate pd rowInit TorrentModel.empty torrents).model.hashes =
        ((populate pd rowInit TorrentModel.empty torrents).model.m_torrents.map
          TorrentModelItem.m_torrent).map QTorrentHandle.hash := by
      simp [TorrentModel.hashes, List.map_map, Function.comp_def, TorrentModelItem.hash]
    rw [this, hmap]
  · have := congrArg List.length hmap
    simpa using this

/-- C7, for the three handles "a", "b", "c": `populate` on the empty model gives
the rows "a", "b", "c"; `removeTorrent("b")` then leaves the rows "a", "c" when
the counter of `torrentRow` starts from 0, but the rows "a", "b" when it starts
from 1 and all three rows when it starts from -1. -/
theorem populate_then_removeTorrent :
    (populate noData (fun _ => 0) TorrentModel.empty
        [handleOf "a" 0 0, handleOf "b" 0 0, handleOf "c" 0 0]).model.m_torrents =
        [rowOf "a", rowOf "b", rowOf "c"] ∧
      (removeTorrent 0 (populate noData (fun _ => 0) TorrentModel.empty
        [handleOf "a" 0 0, handleOf "b" 0 0, handleOf "c" 0 0]).model "b").m_torrents =
        [rowOf "a", rowOf "c"] ∧
      (removeTorrent 1 (populate noData (fun _ => 0) TorrentModel.empty
        [handleOf "a" 0 0, handleOf "b" 0 0, handleOf "c" 0 0]).model "b").m_torrents =
        [rowOf "a", rowOf "b"] ∧
      (removeTorrent (-1) (populate noData (fun _ => 0) TorrentModel.empty
        [handleOf "a" 0 0, handleOf "b" 0 0, handleOf "c" 0 0]).model "b").m_torrents =
        [rowOf "a", rowOf "b", rowOf "c"] := by
  decide

/-! ## Hash uniqueness -/

/-- A row the constructor builds holds the handle it was built from. -/
theorem TorrentModelItem.new_m_torrent (pd : TorrentPersistentData) (h : QTorrentHandle)
    (item : TorrentModelItem) (hnew : TorrentModelItem.new pd h = some item) :
    item.m_torrent = h := by
  unfold TorrentModelItem.new at hnew
  cases hh : h.hash with
  | none => simp [hh] at hnew
  | some x =>
    simp only [hh, Option.some_bind] at hnew
    cases hn : (if (pd.getName x).isEmpty = true then h.name else some (pd.getName x)) with
    | none => simp [hn] at hnew
    | some n =>
      simp only [hn, Option.some_bind, Option.some.injEq] at hnew
      rw [← hnew]

/-- When the counter of `torrentRow` starts from a value that is not negative
and stays in the range of `int`, `addTorrent` keeps the hashes of the rows
pairwise distinct. -/
theorem addTorrent_nodup (pd : TorrentPersistentData) (row0 : Int) (m : TorrentModel)
    (h : QTorrentHandle) (h0 : 0 ≤ row0) (hmax : row0 + m.m_torrents.length ≤ 2147483647)
    (hm : m.hashes.Nodup) :
    (addTorrent pd row0 m h).model.hashes.Nodup := by
  cases hh : h.hash with
  | none => simpa [addTorrent, hh] using hm
  | some x =>
    by_cases hmem : some x ∈ m.hashes
    · rw [addTorrent_of_present pd row0 m h x h0 hmax hh hmem]
      exact hm
    · cases hnew : TorrentModelItem.new pd h with
      | none =>
        have hrow : torrentRow row0 m.m_torrents x = -1 :=
          torrentRow_of_not_mem row0 m.m_torrents x hmem
        simpa [addTorrent, hh, hrow, hnew, TorrentModel.hashes] using hm
      | some item =>
        rw [addTorrent_of_absent pd row0 m h x item hh hmem hnew]
        have hitem : item.hash = some x := by
          unfold TorrentModelItem.hash
          rw [TorrentModelItem.new_m_torrent pd h item hnew, hh]
        have hm2 : (m.m_torrents.map TorrentModelItem.hash).Nodup := hm
        have hmem2 : some x ∉ m.m_torrents.map TorrentModelItem.hash := hmem
        simp only [TorrentModel.hashes, List.map_append, List.map_cons, List.map_nil, hitem]
        rw [List.nodup_append]
        refine ⟨hm2, List.nodup_singleton _, ?_⟩
        intro a ha hb
        rw [List.mem_singleton] at hb
        exact hmem2 (hb ▸ ha)

/-- Whatever value the counter of `torrentRow` starts from, `removeTorrent`
keeps the hashes of the rows pairwise distinct. -/
theorem removeTorrent_nodup (row0 : Int) (m : TorrentModel) (hash : QString)
    (hm : m.hashes.Nodup) : (removeTorrent row0 m hash).hashes.Nodup := by
  unfold removeTorrent
  simp only
  split_ifs
  · exact hm.sublist ((List.eraseIdx_sublist _ _).map _)
  · exact hm

/-- A call of `addTorrent` adds at most one row. -/
theorem addTorrent_length (pd : TorrentPersistentData) (row0 : Int) (m : TorrentModel)
    (h : QTorrentHandle) :
    (addTorrent pd row0 m h).model.m_torrents.length ≤ m.m_torrents.length + 1 := by
  unfold addTorrent
  cases h.hash with
  | none => simp
  | some x =>
    simp only
    split_ifs
    · cases TorrentModelItem.new pd h <;> simp
    · simp

/-- A call of `removeTorrent` adds no row. -/
theorem removeTorrent_length (row0 : Int) (m : TorrentModel) (hash : QString) :
    (removeTorrent row0 m hash).m_torrents.length ≤ m.m_torrents.length := by
  unfold removeTorrent
  simp only
  split_ifs
  · exact (List.eraseIdx_sublist _ _).length_le
  · exact le_refl _

/-- From the empty model, after any sequence of `addTorrent` and
`removeTorrent` calls in which the counter of `torrentRow` starts from a value
that is not negative and stays in the range of `int` in every `addTorrent`, no
two rows have the same hash. -/
theorem runCalls_nodup (pd : TorrentPersistentData) (calls : List Call)
    (hc : ∀ row0 h, Call.addTorrent row0 h ∈ calls →
      0 ≤ row0 ∧ row0 + calls.length ≤ 2147483647) :
    (runCalls pd TorrentModel.empty calls).hashes.Nodup := by
  have gen : ∀ (cs : List Call) (m : TorrentModel) (bound : Nat),
      (∀ row0 h, Call.addTorrent row0 h ∈ cs → 0 ≤ row0 ∧ row0 + bound ≤ 2147483647) →
      m.m_torrents.length + cs.length ≤ bound → m.hashes.Nodup →
      (runCalls pd m cs).hashes.Nodup := by
    intro cs
    induction cs with
    | nil => intro m _ _ _ hm; exact hm
    | cons c rest ih =>
      intro m bound hcs hlen hm
      simp only [List.length_cons] at hlen
      have hstep : (Call.run pd m c).hashes.Nodup ∧
          (Call.run pd m c).m_torrents.length ≤ m.m_torrents.length + 1 := by
        cases c with
        | addTorrent row0 h =>
          obtain ⟨h0, hb⟩ := hcs row0 h (List.mem_cons_self _ _)
          exact ⟨addTorrent_nodup pd row0 m h h0 (by omega) hm, addTorrent_length pd row0 m h⟩
        | removeTorrent row0 hash =>
          exact ⟨removeTorrent_nodup row0 m hash hm,
            le_trans (removeTorrent_length row0 m hash) (Nat.le_succ _)⟩
      exact ih (Call.run pd m c) bound (fun r h hin => hcs r h (List.mem_cons_of_mem _ hin))
        (by omega) hstep.1
  exact gen calls TorrentModel.empty calls.length hc (by simp [TorrentModel.empty])
    (by simp [TorrentModel.hashes, TorrentModel.empty])

/-- C10, on the calls `addTorrent(a)`, `addTorrent(a)` from the empty model:
when the counter of `torrentRow` holds -1 at its declaration in the second
call, the model ends with two rows of hash "a". -/
theorem runCalls_duplicate :
    (runCalls noData TorrentModel.empty
        [.addTorrent 0 (handleOf "a" 0 0), .addTorrent (-1) (handleOf "a" 0 0)]).hashes =
        [some "a", some "a"] ∧
      ¬ (runCalls noData TorrentModel.empty
        [.addTorrent 0 (handleOf "a" 0 0), .addTorrent (-1) (handleOf "a" 0 0)]).hashes.Nodup := by
  decide

end TorrentModelSpec
